import Mathlib

/-!
Shallow embedding of the funnel-builder state store
(`useFunnelStore` hook together with the domain model in `types/funnel.ts`).

The React store is single-threaded and event-driven: every user mutation
performs its `setState` calls, after which the declared effects run in
order (index-ref sync, persistence-save/history-snapshot, validation) until
the component is quiescent.  Each store operation below is the composition
of the mutation body with that deterministic effect cascade, so a value
`Store` always represents the store at quiescence (all internal ref flags
back to `false`).
-/

/-- The five node kinds of the domain model (`NodeType` in the source). -/
inductive NodeType where
  | salesPage
  | orderPage
  | upsell
  | downsell
  | thankYou
deriving DecidableEq, Repr

/-- Static per-kind configuration record (`NODE_TYPE_CONFIG` entries). -/
structure NodeTypeConfig where
  label : String
  defaultButtonLabel : String
  color : String
  icon : String
  canHaveOutgoing : Bool
  description : String
deriving DecidableEq, Repr

/-- Static configuration table, from `NODE_TYPE_CONFIG` in `types/funnel.ts`. -/
def NODE_TYPE_CONFIG : NodeType → NodeTypeConfig
  | NodeType.salesPage =>
      { label := "Sales Page", defaultButtonLabel := "Buy Now", color := "node-sales",
        icon := "Megaphone", canHaveOutgoing := true,
        description := "Landing page to pitch your offer" }
  | NodeType.orderPage =>
      { label := "Order Page", defaultButtonLabel := "Complete Order", color := "node-order",
        icon := "ShoppingCart", canHaveOutgoing := true,
        description := "Checkout form for the purchase" }
  | NodeType.upsell =>
      { label := "Upsell", defaultButtonLabel := "Yes, Add This!", color := "node-upsell",
        icon := "TrendingUp", canHaveOutgoing := true,
        description := "Additional offer after purchase" }
  | NodeType.downsell =>
      { label := "Downsell", defaultButtonLabel := "Get This Instead", color := "node-downsell",
        icon := "TrendingDown", canHaveOutgoing := true,
        description := "Alternative offer if upsell declined" }
  | NodeType.thankYou =>
      { label := "Thank You", defaultButtonLabel := "Continue", color := "node-thankyou",
        icon := "Heart", canHaveOutgoing := false,
        description := "Confirmation page after purchase" }

/-- The key string a `NodeType` value serializes to (used in generated node ids). -/
def nodeTypeKey : NodeType → String
  | NodeType.salesPage => "salesPage"
  | NodeType.orderPage => "orderPage"
  | NodeType.upsell => "upsell"
  | NodeType.downsell => "downsell"
  | NodeType.thankYou => "thankYou"

/-- Payload of a funnel node (`FunnelNodeData`).  `hasWarning` and
`warningMessage` are optional fields in the source, hence `Option` here:
`none` models an absent field. -/
structure NodeData where
  label : String
  nodeType : NodeType
  buttonLabel : String
  hasWarning : Option Bool := none
  warningMessage : Option String := none
deriving DecidableEq, Repr

/-- A funnel node (`FunnelNode`).  The constant `type: 'funnelNode'` field is
omitted; positions are modelled as integer pairs, which is all the claims
need (no claim computes with coordinates). -/
structure FunnelNode where
  id : String
  position : Int × Int
  data : NodeData
deriving DecidableEq, Repr

/-- A funnel edge (`FunnelEdge`). -/
structure FunnelEdge where
  id : String
  source : String
  target : String
  animated : Bool
deriving DecidableEq, Repr

/-- One undo/redo history entry (`HistoryState`). -/
structure HistoryState where
  nodes : List FunnelNode
  edges : List FunnelEdge
deriving DecidableEq, Repr

/-- Per-kind label counters (`Record<NodeType, number>`). -/
structure LabelCounts where
  salesPage : Nat
  orderPage : Nat
  upsell : Nat
  downsell : Nat
  thankYou : Nat
deriving DecidableEq, Repr

/-- Read the counter of one kind. -/
def LabelCounts.get (c : LabelCounts) : NodeType → Nat
  | NodeType.salesPage => c.salesPage
  | NodeType.orderPage => c.orderPage
  | NodeType.upsell => c.upsell
  | NodeType.downsell => c.downsell
  | NodeType.thankYou => c.thankYou

/-- Write the counter of one kind. -/
def LabelCounts.set (c : LabelCounts) : NodeType → Nat → LabelCounts
  | NodeType.salesPage, v => { c with salesPage := v }
  | NodeType.orderPage, v => { c with orderPage := v }
  | NodeType.upsell, v => { c with upsell := v }
  | NodeType.downsell, v => { c with downsell := v }
  | NodeType.thankYou, v => { c with thankYou := v }

/-- The seed counters (`createLabelCounter`). -/
def createLabelCounter : LabelCounts :=
  { salesPage := 1, orderPage := 1, upsell := 0, downsell := 0, thankYou := 1 }

/-- The hardcoded three-node default (`initialNodes`). -/
def initialNodes : List FunnelNode :=
  [ { id := "sales-1", position := (250, 50),
      data := { label := "Sales Page", nodeType := NodeType.salesPage, buttonLabel := "Buy Now" } },
    { id := "order-1", position := (250, 300),
      data := { label := "Order Page", nodeType := NodeType.orderPage, buttonLabel := "Complete Order" } },
    { id := "thankyou-1", position := (250, 550),
      data := { label := "Thank You", nodeType := NodeType.thankYou, buttonLabel := "Continue" } } ]

/-- The hardcoded default edges (`initialEdges`). -/
def initialEdges : List FunnelEdge :=
  [ { id := "e-sales-order", source := "sales-1", target := "order-1", animated := true },
    { id := "e-order-thankyou", source := "order-1", target := "thankyou-1", animated := true } ]

/-- Warning computed for one node by the validation effect body: the local
variables `hasWarning` / `warningMessage` right before the identity check
(source lines 637-659 of the store hook). -/
def computedWarning (edges : List FunnelEdge) (node : FunnelNode) : Bool × String :=
  let outgoingEdges := edges.filter fun e => e.source == node.id
  let w1 : Bool × String :=
    if node.data.nodeType == NodeType.salesPage then
      if outgoingEdges.length == 0 then
        (true, "Sales page should connect to an Order page")
      else if outgoingEdges.length > 1 then
        (true, "Sales page should have only one outgoing connection")
      else (false, "")
    else (false, "")
  if node.data.nodeType != NodeType.salesPage then
    let incomingEdges := edges.filter fun e => e.target == node.id
    if incomingEdges.length == 0 then
      (true, "This node is not connected to the funnel")
    else w1
  else w1

/-- The per-node body of the validation effect's `setNodes` map: update the
warning fields only when they actually differ (source lines 636-668). -/
def validateNode (edges : List FunnelEdge) (node : FunnelNode) : FunnelNode :=
  let w := computedWarning edges node
  if node.data.hasWarning != some w.1 || node.data.warningMessage != some w.2 then
    { node with data := { node.data with hasWarning := some w.1, warningMessage := some w.2 } }
  else node

/-- The validation effect's node rewrite over the whole collection. -/
def validateNodes (edges : List FunnelEdge) (nodes : List FunnelNode) : List FunnelNode :=
  nodes.map (validateNode edges)

/-- The quiescent store state: node/edge collections, label counters, and the
undo/redo history with its current index.  `currentIndex` is a `Nat` because
after initialization it is always ≥ 0 (the `-1` pre-initialization value of
the source never survives the mount effects). -/
structure Store where
  nodes : List FunnelNode
  edges : List FunnelEdge
  labelCounts : LabelCounts
  history : List HistoryState
  currentIndex : Nat
deriving DecidableEq, Repr

/-- The validation effect as a store step: rewrites node warnings from the
current edge set.  Because the effect sets `isValidationUpdateRef` before its
`setNodes`, the follow-up run of the save/history effect skips the snapshot,
so history and index are untouched. -/
def runValidationEffect (s : Store) : Store :=
  { s with nodes := validateNodes s.edges s.nodes }

/-- The non-drag history snapshot step of the save/history effect (source
lines 602-624): truncate the future beyond `currentIndex`, append the deep
copy `c`, and when the length passes `MAX_HISTORY_SIZE = 50` shift off the
oldest entry and clamp the index to 49. -/
def snapshot (history : List HistoryState) (currentIndex : Nat) (c : HistoryState) :
    List HistoryState × Nat :=
  let nextHistory := history.take (currentIndex + 1) ++ [c]
  if nextHistory.length > 50 then (nextHistory.tail, 49)
  else (nextHistory, nextHistory.length - 1)

/-- Effect cascade after a plain (non-drag, flag-free) user mutation that set
the node state to `ns` and the edge state to `es`: first the save/history
effect snapshots the pre-validation state, then — iff the edges state object
was replaced (`edgesChanged`) — the validation effect rewrites the warnings,
whose own follow-up save run is snapshot-exempt. -/
def runUserCascade (s : Store) (ns : List FunnelNode) (es : List FunnelEdge)
    (edgesChanged : Bool) : Store :=
  let snap := snapshot s.history s.currentIndex { nodes := ns, edges := es }
  let s1 : Store := { s with nodes := ns, edges := es, history := snap.1, currentIndex := snap.2 }
  if edgesChanged then runValidationEffect s1 else s1

/-- A connection request from the rendering layer (`Connection`). -/
structure Connection where
  source : String
  target : String
deriving DecidableEq, Repr

/-- Modelled from the external graph library: `addEdge` of `@xyflow/react`
(an out-of-repository collaborator).  Its documented behavior: return the
edge list unchanged when source or target is missing or when an edge with
the same source and target already exists, otherwise append the new edge
with a generated id.  The store passes `{ ...connection, animated: true }`. -/
def addEdge (c : Connection) (eds : List FunnelEdge) : List FunnelEdge :=
  if c.source == "" || c.target == "" then eds
  else if eds.any fun e => e.source == c.source && e.target == c.target then eds
  else eds ++ [{ id := "xy-edge__" ++ c.source ++ "-" ++ c.target,
                 source := c.source, target := c.target, animated := true }]

/-- The `onConnect` mutation: silently drop connections whose source id
resolves to a Thank You node; otherwise hand the connection to `addEdge`.
When `addEdge` returns the list unchanged the state reference is unchanged,
so no effect (and no snapshot) runs at all. -/
def connectOp (s : Store) (c : Connection) : Store :=
  if (s.nodes.find? fun n => n.id == c.source).any (fun n => n.data.nodeType == NodeType.thankYou) then
    s
  else
    let newEdges := addEdge c s.edges
    if newEdges = s.edges then s
    else runUserCascade s s.nodes newEdges true

/-- The `addNode` mutation: bump the kind's counter, build the label, append
the node (id generated from the kind key and `Date.now()`, passed here as
`now`).  Only the nodes state changes, so the validation effect does not run. -/
def addNodeOp (s : Store) (t : NodeType) (pos : Int × Int) (now : Nat) : Store :=
  let config := NODE_TYPE_CONFIG t
  let newCount := s.labelCounts.get t + 1
  let label :=
    if t == NodeType.upsell || t == NodeType.downsell then
      config.label ++ " " ++ toString newCount
    else if newCount > 1 then
      config.label ++ " " ++ toString newCount
    else config.label
  let newNode : FunnelNode :=
    { id := nodeTypeKey t ++ "-" ++ toString now, position := pos,
      data := { label := label, nodeType := t, buttonLabel := config.defaultButtonLabel } }
  let s1 := runUserCascade s (s.nodes ++ [newNode]) s.edges false
  { s1 with labelCounts := s.labelCounts.set t newCount }

/-- The `deleteNode` mutation: drop the node and every edge touching it. -/
def deleteNodeOp (s : Store) (nodeId : String) : Store :=
  runUserCascade s
    (s.nodes.filter fun n => !(n.id == nodeId))
    (s.edges.filter fun e => !(e.source == nodeId) && !(e.target == nodeId))
    true

/-- The `deleteEdge` mutation. -/
def deleteEdgeOp (s : Store) (edgeId : String) : Store :=
  runUserCascade s s.nodes (s.edges.filter fun e => !(e.id == edgeId)) true

/-- Value of the trailing-digit run matched by the reconstruction regex
`/(\d+)$/`, as a list of digit characters in order. -/
def trailingDigits (lab : String) : List Char :=
  (lab.data.reverse.takeWhile Char.isDigit).reverse

/-- Decimal value of a digit list (the `parseInt` of the regex capture). -/
def digitsVal (ds : List Char) : Nat :=
  ds.foldl (fun a c => a * 10 + (c.toNat - 48)) 0

/-- Trailing integer of a label: `some` of the parsed value when the label
ends in at least one digit, `none` otherwise. -/
def trailingNat (lab : String) : Option Nat :=
  if trailingDigits lab = [] then none else some (digitsVal (trailingDigits lab))

/-- One step of the load-effect label-count reconstruction (source lines
506-516): a trailing integer raises the kind's counter to it when not
smaller; a label without trailing digits raises the counter to at least 1. -/
def bumpLoad (counts : LabelCounts) (node : FunnelNode) : LabelCounts :=
  match trailingNat node.data.label with
  | some num =>
      if counts.get node.data.nodeType ≤ num then counts.set node.data.nodeType num else counts
  | none =>
      counts.set node.data.nodeType (max (counts.get node.data.nodeType) 1)

/-- One step of the `importFunnel` label-count reconstruction (source lines
780-788): identical to the load version except that a label without trailing
digits leaves the counter untouched (the `else` branch is absent there). -/
def bumpImport (counts : LabelCounts) (node : FunnelNode) : LabelCounts :=
  match trailingNat node.data.label with
  | some num =>
      if counts.get node.data.nodeType ≤ num then counts.set node.data.nodeType num else counts
  | none => counts

/-- Label-count reconstruction used by the load-from-storage effect. -/
def reconstructLoad (nodes : List FunnelNode) : LabelCounts :=
  nodes.foldl bumpLoad createLabelCounter

/-- Label-count reconstruction used by `importFunnel`. -/
def reconstructImport (nodes : List FunnelNode) : LabelCounts :=
  nodes.foldl bumpImport createLabelCounter

/-- Outcome of `JSON.parse` on an import payload, at the shape `importFunnel`
reads: `none` models a parse exception, and each field is `none` when the
parsed object lacks it (the `!state.nodes || !state.edges` check). -/
structure ImportPayload where
  nodes : Option (List FunnelNode)
  edges : Option (List FunnelEdge)
deriving DecidableEq, Repr

/-- The synchronous body of `importFunnel` (source lines 761-796): on any
parse failure or missing field, return `false` touching nothing; on success
replace nodes and edges, reset history to the single imported entry with
index 0, and reconstruct the label counters. -/
def importFunnelCore (s : Store) (parsed : Option ImportPayload) : Bool × Store :=
  match parsed with
  | none => (false, s)
  | some p =>
    match p.nodes, p.edges with
    | some ns, some es =>
        (true, { s with
                 nodes := ns
                 edges := es
                 history := [{ nodes := ns, edges := es }]
                 currentIndex := 0
                 labelCounts := reconstructImport ns })
    | _, _ => (false, s)

/-- `importFunnel` together with its effect cascade: a successful import
replaces the state, after which the save/history effect appends one snapshot
on top of the reset history and the validation effect recomputes warnings. -/
def importFunnelOp (s : Store) (parsed : Option ImportPayload) : Bool × Store :=
  let r := importFunnelCore s parsed
  if r.1 then (true, runUserCascade r.2 r.2.nodes r.2.edges true) else r

/-- `clearFunnel` together with its effect cascade: empty both collections,
reseed the counters, reset history to a single empty entry — after which the
save/history effect appends one more snapshot of the (empty) state. -/
def clearFunnelOp (s : Store) : Store :=
  let s1 : Store :=
    { s with
      nodes := []
      edges := []
      labelCounts := createLabelCounter
      history := [{ nodes := [], edges := [] }]
      currentIndex := 0 }
  runUserCascade s1 [] [] true

/-- The `undo` operation with its cascade: no-op at index 0; otherwise move
the index down and restore the entry (deep copies passed to `setNodes` /
`setEdges`).  The restore is history-exempt (`isUndoRedoRef`), but the fresh
edges array re-runs the validation effect over the restored nodes. -/
def undoOp (s : Store) : Store :=
  if s.currentIndex = 0 then s
  else
    let newIndex := s.currentIndex - 1
    match s.history.get? newIndex with
    | some prev =>
        { s with
          currentIndex := newIndex
          nodes := validateNodes prev.edges prev.nodes
          edges := prev.edges }
    | none => { s with currentIndex := newIndex }

/-- The `redo` operation with its cascade, symmetric to `undoOp`. -/
def redoOp (s : Store) : Store :=
  if s.currentIndex ≥ s.history.length - 1 then s
  else
    let newIndex := s.currentIndex + 1
    match s.history.get? newIndex with
    | some next =>
        { s with
          currentIndex := newIndex
          nodes := validateNodes next.edges next.nodes
          edges := next.edges }
    | none => { s with currentIndex := newIndex }

/-- `canUndo` as exposed by the hook. -/
def canUndo (s : Store) : Bool := 0 < s.currentIndex

/-- `canRedo` as exposed by the hook. -/
def canRedo (s : Store) : Bool := s.currentIndex < s.history.length - 1

/-- The quiescent store right after a first mount with no saved state: the
load effect installs the default three-node funnel, the save effect seeds the
history with the pre-validation state, and the validation effect then
rewrites the live node warnings (its follow-up save run is snapshot-exempt). -/
def initStore : Store :=
  { nodes := validateNodes initialEdges initialNodes,
    edges := initialEdges,
    labelCounts := createLabelCounter,
    history := [{ nodes := initialNodes, edges := initialEdges }],
    currentIndex := 0 }

/-- A user mutation of the store (the non-drag mutating operations the hook
exposes; drag position changes go through the debounced path instead and are
outside this type). -/
inductive Mutation where
  | addNode : NodeType → Int × Int → Nat → Mutation
  | deleteNode : String → Mutation
  | deleteEdge : String → Mutation
  | connect : Connection → Mutation
  | importFunnel : Option ImportPayload → Mutation
  | clearFunnel : Mutation
deriving DecidableEq, Repr

/-- Apply one user mutation (with its full effect cascade). -/
def applyMutation (s : Store) : Mutation → Store
  | Mutation.addNode t pos now => addNodeOp s t pos now
  | Mutation.deleteNode i => deleteNodeOp s i
  | Mutation.deleteEdge i => deleteEdgeOp s i
  | Mutation.connect c => connectOp s c
  | Mutation.importFunnel p => (importFunnelOp s p).2
  | Mutation.clearFunnel => clearFunnelOp s

/-- Apply a sequence of user mutations in order. -/
def applyMutations (s : Store) (ms : List Mutation) : Store :=
  ms.foldl applyMutation s

/-- Write both warning fields of a node unconditionally. -/
def writeWarning (node : FunnelNode) (w : Bool × String) : FunnelNode :=
  { node with data := { node.data with hasWarning := some w.1, warningMessage := some w.2 } }

/-- Modelled from the claim wording (specification §4.2): a SalesPage node
with 0 outgoing edges warns about the missing Order-page connection, with
more than one outgoing edge about the extra connections, with exactly one it
is clean; every non-SalesPage node with 0 incoming edges is an orphan; every
other node is clean. -/
def claimWarning (edges : List FunnelEdge) (n : FunnelNode) : Bool × String :=
  let outgoing := (edges.filter fun e => e.source == n.id).length
  let incoming := (edges.filter fun e => e.target == n.id).length
  if n.data.nodeType = NodeType.salesPage then
    if outgoing = 0 then (true, "Sales page should connect to an Order page")
    else if outgoing > 1 then (true, "Sales page should have only one outgoing connection")
    else (false, "")
  else
    if incoming = 0 then (true, "This node is not connected to the funnel")
    else (false, "")

theorem computedWarning_eq_claim (edges : List FunnelEdge) (n : FunnelNode) :
    computedWarning edges n = claimWarning edges n := by
  by_cases h : n.data.nodeType = NodeType.salesPage <;>
    simp [computedWarning, claimWarning, h]

theorem computedWarning_congr (edges : List FunnelEdge) (m n : FunnelNode)
    (h1 : m.id = n.id) (h2 : m.data.nodeType = n.data.nodeType) :
    computedWarning edges m = computedWarning edges n := by
  simp only [computedWarning, h1, h2]

theorem writeWarning_self (n : FunnelNode) (w : Bool × String)
    (h1 : n.data.hasWarning = some w.1) (h2 : n.data.warningMessage = some w.2) :
    writeWarning n w = n := by
  obtain ⟨i, p, l, t, b, hw, wm⟩ := n
  simp only [writeWarning] at *
  simp_all

theorem validateNode_eq_write (edges : List FunnelEdge) (n : FunnelNode) :
    validateNode edges n = writeWarning n (computedWarning edges n) := by
  by_cases h : (n.data.hasWarning != some (computedWarning edges n).1 ||
      n.data.warningMessage != some (computedWarning edges n).2) = true
  · simp only [validateNode, h, if_true]
    rfl
  · rw [Bool.or_eq_true, not_or] at h
    obtain ⟨h1, h2⟩ := h
    rw [Bool.not_eq_true, bne_eq_false_iff_eq] at h1 h2
    simp only [validateNode, h1, h2, bne_self_eq_false, Bool.or_self, Bool.false_eq_true,
      if_false]
    exact (writeWarning_self n (computedWarning edges n) h1 h2).symm

theorem validateNode_id (edges : List FunnelEdge) (n : FunnelNode) :
    (validateNode edges n).id = n.id := by
  rw [validateNode_eq_write]; rfl

theorem validateNode_nodeType (edges : List FunnelEdge) (n : FunnelNode) :
    (validateNode edges n).data.nodeType = n.data.nodeType := by
  rw [validateNode_eq_write]; rfl

theorem validateNode_hasWarning (edges : List FunnelEdge) (n : FunnelNode) :
    (validateNode edges n).data.hasWarning = some (computedWarning edges n).1 := by
  rw [validateNode_eq_write]; rfl

theorem validateNode_warningMessage (edges : List FunnelEdge) (n : FunnelNode) :
    (validateNode edges n).data.warningMessage = some (computedWarning edges n).2 := by
  rw [validateNode_eq_write]; rfl

theorem validateNode_idem (edges : List FunnelEdge) (n : FunnelNode) :
    validateNode edges (validateNode edges n) = validateNode edges n := by
  have hcw : computedWarning edges (validateNode edges n) = computedWarning edges n :=
    computedWarning_congr edges _ n (validateNode_id edges n) (validateNode_nodeType edges n)
  conv_lhs => rw [validateNode]
  simp only [hcw, validateNode_hasWarning, validateNode_warningMessage,
    bne_self_eq_false, Bool.or_self, Bool.false_eq_true, if_false]

theorem validateNodes_idem (edges : List FunnelEdge) (nodes : List FunnelNode) :
    validateNodes edges (validateNodes edges nodes) = validateNodes edges nodes := by
  simp only [validateNodes, List.map_map]
  exact List.map_congr_left fun n _ => validateNode_idem edges n

/-- Claim C5: the validation pass computes warnings exactly by the claimed
per-node case split — SalesPage with 0 outgoing edges gets the Order-page
warning, with more than one outgoing edge the single-connection warning,
with exactly one no warning; every non-SalesPage node with 0 incoming edges
gets the orphan warning; every other node gets no warning. -/
theorem validation_computes_claimed_warnings (edges : List FunnelEdge) (nodes : List FunnelNode) :
    validateNodes edges nodes = nodes.map fun n => writeWarning n (claimWarning edges n) := by
  unfold validateNodes
  exact List.map_congr_left fun n _ => by
    rw [validateNode_eq_write, computedWarning_eq_claim]

/-- Claim C6: re-running the validation pass on an unchanged edge set yields
the same warning states (idempotence), returns a node unchanged whenever its
stored warning fields already equal the computed ones, and the validation
step never touches the history or its index (no spurious history entry). -/
theorem validation_idempotent (s : Store) :
    validateNodes s.edges (validateNodes s.edges s.nodes) = validateNodes s.edges s.nodes ∧
    (∀ n, n ∈ s.nodes → n.data.hasWarning = some (claimWarning s.edges n).1 →
       n.data.warningMessage = some (claimWarning s.edges n).2 → validateNode s.edges n = n) ∧
    (runValidationEffect s).history = s.history ∧
    (runValidationEffect s).currentIndex = s.currentIndex := by
  refine ⟨validateNodes_idem _ _, ?_, rfl, rfl⟩
  intro n _ h1 h2
  rw [← computedWarning_eq_claim] at h1 h2
  rw [validateNode_eq_write]
  exact writeWarning_self n _ h1 h2

/-- A concrete already-validated node of the default funnel, used as witness
input. -/
def sampleValidatedNode : FunnelNode :=
  { id := "sales-1", position := (250, 50),
    data := { label := "Sales Page", nodeType := NodeType.salesPage, buttonLabel := "Buy Now",
              hasWarning := some false, warningMessage := some "" } }

theorem validation_idempotent_witness :
    (sampleValidatedNode ∈ initStore.nodes ∧
     sampleValidatedNode.data.hasWarning = some (claimWarning initStore.edges sampleValidatedNode).1 ∧
     sampleValidatedNode.data.warningMessage = some (claimWarning initStore.edges sampleValidatedNode).2) ∧
    validateNode initStore.edges sampleValidatedNode = sampleValidatedNode :=
  ⟨⟨by decide, by decide, by decide⟩,
   (validation_idempotent initStore).2.1 sampleValidatedNode (by decide) (by decide) (by decide)⟩

/-- Claim C7: connecting from a source id that belongs to a Thank You node is
a silent no-op — the whole store state is returned unchanged. -/
theorem connect_from_thankyou_noop (s : Store) (c : Connection)
    (hmem : ∃ n, n ∈ s.nodes ∧ n.id = c.source)
    (hty : ∀ n, n ∈ s.nodes → n.id = c.source → n.data.nodeType = NodeType.thankYou) :
    connectOp s c = s := by
  obtain ⟨n, hn, hid⟩ := hmem
  have hfind : (s.nodes.find? fun m => m.id == c.source).isSome := by
    rw [List.find?_isSome]
    exact ⟨n, hn, by simp [hid]⟩
  obtain ⟨m, hm⟩ := Option.isSome_iff_exists.mp hfind
  have hmmem : m ∈ s.nodes := List.mem_of_find?_eq_some hm
  have hmid : m.id = c.source := by
    have := List.find?_some hm
    simpa using this
  have hmty : m.data.nodeType = NodeType.thankYou := hty m hmmem hmid
  unfold connectOp
  rw [hm]
  simp [hmty]

theorem connect_from_thankyou_noop_witness :
    ((∃ n, n ∈ initStore.nodes ∧ n.id = "thankyou-1") ∧
     (∀ n, n ∈ initStore.nodes → n.id = "thankyou-1" → n.data.nodeType = NodeType.thankYou)) ∧
    connectOp initStore { source := "thankyou-1", target := "sales-1" } = initStore :=
  ⟨⟨by decide, by decide⟩,
   connect_from_thankyou_noop initStore { source := "thankyou-1", target := "sales-1" }
     (by decide) (by decide)⟩

/-- Claim C8: `importFunnel` returns `false` leaving the whole store (nodes,
edges, label counters, history) untouched exactly when the text fails to
parse or the parsed value misses its `nodes` or `edges` field; on any other
payload it returns `true` and installs the parsed nodes and edges. -/
theorem importFunnel_failure_iff (s : Store) (p : Option ImportPayload) :
    ((importFunnelCore s p).1 = false ∧ (importFunnelCore s p).2 = s ↔
      p = none ∨ ∃ q, p = some q ∧ (q.nodes = none ∨ q.edges = none)) ∧
    (∀ q ns es, p = some q → q.nodes = some ns → q.edges = some es →
      (importFunnelCore s p).1 = true ∧ (importFunnelCore s p).2.nodes = ns ∧
      (importFunnelCore s p).2.edges = es) := by
  constructor
  · cases p with
    | none => simp [importFunnelCore]
    | some q =>
      cases hn : q.nodes with
      | none =>
        simp only [importFunnelCore, hn]
        simp [hn]
      | some ns =>
        cases he : q.edges with
        | none =>
          simp only [importFunnelCore, hn, he]
          simp [hn, he]
        | some es =>
          simp only [importFunnelCore, hn, he]
          simp [hn, he]
  · intro q ns es hp hn he
    subst hp
    simp [importFunnelCore, hn, he]

theorem importFunnel_failure_iff_witness :
    ((importFunnelCore initStore (some { nodes := some [], edges := none })).1 = false ∧
     (importFunnelCore initStore (some { nodes := some [], edges := none })).2 = initStore) ∧
    ((importFunnelCore initStore (some { nodes := some [], edges := some [] })).1 = true ∧
     (importFunnelCore initStore (some { nodes := some [], edges := some [] })).2.nodes = [] ∧
     (importFunnelCore initStore (some { nodes := some [], edges := some [] })).2.edges = []) :=
  ⟨(importFunnel_failure_iff initStore (some { nodes := some [], edges := none })).1.mpr
     (Or.inr ⟨_, rfl, Or.inr rfl⟩),
   (importFunnel_failure_iff initStore (some { nodes := some [], edges := some [] })).2
     _ _ _ rfl rfl rfl⟩

/-- The entry the history's current tip points at when the index sits at the
end: element at position `length - 1`. -/
def lastEntry (l : List HistoryState) : Option HistoryState :=
  l.get? (l.length - 1)

theorem lastEntry_concat (l : List HistoryState) (c : HistoryState) :
    lastEntry (l ++ [c]) = some c := by
  unfold lastEntry
  have hlen : (l ++ [c]).length - 1 = l.length := by
    simp
  rw [hlen]
  exact List.get?_concat_length l c

theorem snapshot_spec (h : List HistoryState) (i : Nat) (c : HistoryState)
    (hlen1 : 1 ≤ h.length) (hlen50 : h.length ≤ 50) :
    (snapshot h i c).2 + 1 = (snapshot h i c).1.length ∧
    (snapshot h i c).1.length ≤ 50 ∧
    2 ≤ (snapshot h i c).1.length ∧
    lastEntry (snapshot h i c).1 = some c := by
  unfold snapshot
  have htk : (h.take (i + 1)).length = min (i + 1) h.length := List.length_take _ _
  have hlo : 1 ≤ (h.take (i + 1)).length := by rw [htk]; omega
  have hhi : (h.take (i + 1)).length ≤ 50 := by rw [htk]; omega
  by_cases hbig : (h.take (i + 1) ++ [c]).length > 50
  · rw [if_pos hbig]
    rw [List.length_append, List.length_singleton] at hbig
    have h50 : (h.take (i + 1)).length = 50 := by omega
    obtain ⟨x, xs, hx⟩ : ∃ x xs, h.take (i + 1) = x :: xs := by
      cases htake : h.take (i + 1) with
      | nil => rw [htake] at hlo; simp at hlo
      | cons x xs => exact ⟨x, xs, rfl⟩
    rw [hx]
    simp only [List.cons_append, List.tail_cons]
    have hxslen : xs.length = 49 := by
      rw [hx] at h50
      simp at h50
      omega
    refine ⟨?_, ?_, ?_, lastEntry_concat xs c⟩ <;> simp [hxslen]
  · rw [if_neg hbig]
    rw [List.length_append, List.length_singleton] at hbig
    have hl : (h.take (i + 1) ++ [c]).length = (h.take (i + 1)).length + 1 := by simp
    refine ⟨?_, ?_, ?_, lastEntry_concat _ c⟩ <;> rw [hl] <;> omega

/-- Reachability invariant of the quiescent store: the index points at the
last history entry, the history is a nonempty list of at most 50 entries,
the last entry carries the live edge set and validates to the live node
warnings, and a singleton history can only be the untouched initial store,
whose nodes are already validation-stable. -/
def INV (s : Store) : Prop :=
  s.currentIndex + 1 = s.history.length ∧
  s.history.length ≤ 50 ∧
  (∃ e, lastEntry s.history = some e ∧ e.edges = s.edges ∧
     validateNodes s.edges e.nodes = validateNodes s.edges s.nodes) ∧
  (s.history.length = 1 → s.nodes = validateNodes s.edges s.nodes)

theorem runUserCascade_nodes (s : Store) (ns : List FunnelNode) (es : List FunnelEdge)
    (b : Bool) :
    (runUserCascade s ns es b).nodes = if b then validateNodes es ns else ns := by
  unfold runUserCascade runValidationEffect
  cases b <;> simp

theorem runUserCascade_edges (s : Store) (ns : List FunnelNode) (es : List FunnelEdge)
    (b : Bool) :
    (runUserCascade s ns es b).edges = es := by
  unfold runUserCascade runValidationEffect
  cases b <;> simp

theorem runUserCascade_history (s : Store) (ns : List FunnelNode) (es : List FunnelEdge)
    (b : Bool) :
    (runUserCascade s ns es b).history =
      (snapshot s.history s.currentIndex { nodes := ns, edges := es }).1 := by
  unfold runUserCascade runValidationEffect
  cases b <;> simp

theorem runUserCascade_currentIndex (s : Store) (ns : List FunnelNode) (es : List FunnelEdge)
    (b : Bool) :
    (runUserCascade s ns es b).currentIndex =
      (snapshot s.history s.currentIndex { nodes := ns, edges := es }).2 := by
  unfold runUserCascade runValidationEffect
  cases b <;> simp

theorem runUserCascade_inv (s : Store) (ns : List FunnelNode) (es : List FunnelEdge)
    (b : Bool) (hlen1 : 1 ≤ s.history.length) (hlen50 : s.history.length ≤ 50) :
    INV (runUserCascade s ns es b) := by
  obtain ⟨h1, h2, h3, h4⟩ :=
    snapshot_spec s.history s.currentIndex { nodes := ns, edges := es } hlen1 hlen50
  refine ⟨?_, ?_, ?_, ?_⟩
  · rw [runUserCascade_currentIndex, runUserCascade_history]; exact h1
  · rw [runUserCascade_history]; exact h2
  · refine ⟨{ nodes := ns, edges := es }, ?_, ?_, ?_⟩
    · rw [runUserCascade_history]; exact h4
    · rw [runUserCascade_edges]
    · rw [runUserCascade_edges, runUserCascade_nodes]
      cases b with
      | false => rfl
      | true => simp [validateNodes_idem]
  · intro hone
    rw [runUserCascade_history] at hone
    omega

theorem INV_historyLen1 (s : Store) (h : INV s) : 1 ≤ s.history.length := by
  obtain ⟨h1, _, _, _⟩ := h
  omega

theorem initStore_inv : INV initStore := by
  refine ⟨rfl, by norm_num [initStore], ?_, ?_⟩
  · exact ⟨{ nodes := initialNodes, edges := initialEdges }, rfl, rfl,
      (validateNodes_idem initialEdges initialNodes).symm⟩
  · intro _
    exact (validateNodes_idem initialEdges initialNodes).symm

theorem applyMutation_inv (s : Store) (m : Mutation) (h : INV s) : INV (applyMutation s m) := by
  have hlen1 : 1 ≤ s.history.length := INV_historyLen1 s h
  have hlen50 : s.history.length ≤ 50 := h.2.1
  cases m with
  | addNode t pos now =>
    show INV (addNodeOp s t pos now)
    unfold addNodeOp
    exact runUserCascade_inv s _ _ false hlen1 hlen50
  | deleteNode i =>
    exact runUserCascade_inv s _ _ true hlen1 hlen50
  | deleteEdge i =>
    exact runUserCascade_inv s _ _ true hlen1 hlen50
  | connect c =>
    show INV (connectOp s c)
    simp only [connectOp]
    split
    · exact h
    · split
      · exact h
      · exact runUserCascade_inv s _ _ true hlen1 hlen50
  | importFunnel p =>
    show INV (importFunnelOp s p).2
    cases p with
    | none => exact h
    | some q =>
      cases hn : q.nodes with
      | none =>
        simp only [importFunnelOp, importFunnelCore, hn]
        exact h
      | some ns =>
        cases he : q.edges with
        | none =>
          simp only [importFunnelOp, importFunnelCore, hn, he]
          exact h
        | some es =>
          simp only [importFunnelOp, importFunnelCore, hn, he, if_pos]
          exact runUserCascade_inv _ _ _ true (by simp) (by simp)
  | clearFunnel =>
    show INV (clearFunnelOp s)
    unfold clearFunnelOp
    exact runUserCascade_inv _ [] [] true (by simp) (by simp)

theorem applyMutations_inv (ms : List Mutation) : INV (applyMutations initStore ms) := by
  suffices hgen : ∀ s, INV s → INV (applyMutations s ms) from hgen initStore initStore_inv
  induction ms with
  | nil => intro s hs; exact hs
  | cons m rest ih =>
    intro s hs
    exact ih (applyMutation s m) (applyMutation_inv s m hs)

/-- Claim C2: along any sequence of (non-drag) user mutations the history
never exceeds 50 entries and the index always points at the latest entry;
and whenever appending a snapshot would push the length past 50 the oldest
entry is shifted off (FIFO) and the index is clamped to 49. -/
theorem history_bound (ms : List Mutation) :
    ((applyMutations initStore ms).history.length ≤ 50 ∧
     (applyMutations initStore ms).currentIndex =
       (applyMutations initStore ms).history.length - 1) ∧
    ∀ (h : List HistoryState) (i : Nat) (c : HistoryState),
      (h.take (i + 1) ++ [c]).length > 50 →
      snapshot h i c = ((h.take (i + 1) ++ [c]).tail, 49) := by
  constructor
  · obtain ⟨h1, h2, _, _⟩ := applyMutations_inv ms
    exact ⟨h2, by omega⟩
  · intro h i c hbig
    unfold snapshot
    rw [if_pos hbig]

theorem history_bound_witness :
    (((List.replicate 50 ({ nodes := [], edges := [] } : HistoryState)).take (50 + 1) ++
        [({ nodes := [], edges := [] } : HistoryState)]).length > 50) ∧
    ((applyMutations initStore [Mutation.clearFunnel]).history.length ≤ 50 ∧
     (applyMutations initStore [Mutation.clearFunnel]).currentIndex =
       (applyMutations initStore [Mutation.clearFunnel]).history.length - 1) ∧
    snapshot (List.replicate 50 { nodes := [], edges := [] }) 50 { nodes := [], edges := [] } =
      (((List.replicate 50 ({ nodes := [], edges := [] } : HistoryState)).take (50 + 1) ++
        [({ nodes := [], edges := [] } : HistoryState)]).tail, 49) :=
  ⟨by decide, (history_bound [Mutation.clearFunnel]).1,
   (history_bound []).2 _ _ _ (by decide)⟩

theorem undoOp_iter_spec (k : Nat) :
    ∀ s : Store, s.currentIndex < s.history.length →
      (undoOp^[k] s).history = s.history ∧
      (undoOp^[k] s).currentIndex = s.currentIndex - k ∧
      ((undoOp^[k] s).currentIndex = s.currentIndex → undoOp^[k] s = s) := by
  induction k with
  | zero =>
    intro s _
    exact ⟨rfl, rfl, fun _ => rfl⟩
  | succ k ih =>
    intro s hs
    rw [Function.iterate_succ_apply]
    by_cases h0 : s.currentIndex = 0
    · have hstep : undoOp s = s := by simp only [undoOp, if_pos h0]
      rw [hstep]
      obtain ⟨i1, i2, i3⟩ := ih s hs
      exact ⟨i1, by omega, i3⟩
    · have hidx : s.currentIndex - 1 < s.history.length := by omega
      obtain ⟨prev, hprev⟩ : ∃ e, s.history.get? (s.currentIndex - 1) = some e := by
        cases hg : s.history.get? (s.currentIndex - 1) with
        | none =>
          rw [List.get?_eq_none] at hg
          omega
        | some e => exact ⟨e, rfl⟩
      have hstep : undoOp s =
          { s with
            currentIndex := s.currentIndex - 1
            nodes := validateNodes prev.edges prev.nodes
            edges := prev.edges } := by
        simp only [undoOp, if_neg h0, hprev]
      rw [hstep]
      obtain ⟨i1, i2, i3⟩ := ih
        { s with
          currentIndex := s.currentIndex - 1
          nodes := validateNodes prev.edges prev.nodes
          edges := prev.edges } hidx
      refine ⟨i1, by rw [i2]; simp; omega, ?_⟩
      intro hc
      rw [i2] at hc
      simp at hc
      omega

theorem redoOp_iter_spec (k : Nat) :
    ∀ t : Store, t.currentIndex < t.history.length →
      (redoOp^[k] t).history = t.history ∧
      (redoOp^[k] t).currentIndex = min (t.currentIndex + k) (t.history.length - 1) ∧
      ((redoOp^[k] t).currentIndex = t.currentIndex → redoOp^[k] t = t) ∧
      ((redoOp^[k] t).currentIndex ≠ t.currentIndex →
        ∃ e, t.history.get? (redoOp^[k] t).currentIndex = some e ∧
          (redoOp^[k] t).nodes = validateNodes e.edges e.nodes ∧
          (redoOp^[k] t).edges = e.edges) := by
  induction k with
  | zero =>
    intro t ht
    refine ⟨rfl, ?_, fun _ => rfl, fun hc => absurd rfl hc⟩
    show t.currentIndex = min (t.currentIndex + 0) (t.history.length - 1)
    omega
  | succ k ih =>
    intro t ht
    rw [Function.iterate_succ_apply]
    by_cases hend : t.currentIndex ≥ t.history.length - 1
    · have hstep : redoOp t = t := by simp only [redoOp, if_pos hend]
      rw [hstep]
      obtain ⟨i1, i2, i3, i4⟩ := ih t ht
      refine ⟨i1, ?_, i3, i4⟩
      rw [i2]
      omega
    · push_neg at hend
      have hlt : t.currentIndex + 1 < t.history.length := by omega
      obtain ⟨nxt, hnxt⟩ : ∃ e, t.history.get? (t.currentIndex + 1) = some e := by
        cases hg : t.history.get? (t.currentIndex + 1) with
        | none =>
          rw [List.get?_eq_none] at hg
          omega
        | some e => exact ⟨e, rfl⟩
      have hguard : ¬ t.currentIndex ≥ t.history.length - 1 := by omega
      have hstep : redoOp t =
          { t with
            currentIndex := t.currentIndex + 1
            nodes := validateNodes nxt.edges nxt.nodes
            edges := nxt.edges } := by
        simp only [redoOp, if_neg hguard, hnxt]
      rw [hstep]
      obtain ⟨i1, i2, i3, i4⟩ := ih
        { t with
          currentIndex := t.currentIndex + 1
          nodes := validateNodes nxt.edges nxt.nodes
          edges := nxt.edges } hlt
      refine ⟨i1, ?_, ?_, ?_⟩
      · rw [i2]
        simp only
        omega
      · intro hc
        rw [i2] at hc
        simp only at hc
        omega
      · intro _
        by_cases hci :
            (redoOp^[k]
              { t with
                currentIndex := t.currentIndex + 1
                nodes := validateNodes nxt.edges nxt.nodes
                edges := nxt.edges }).currentIndex = t.currentIndex + 1
        · have heq := i3 hci
          rw [heq]
          exact ⟨nxt, hnxt, rfl, rfl⟩
        · exact i4 hci

/-- Claim C1 (amended): after any sequence of k non-drag user mutations
(k ≤ 50) from the initialized store, undoing k times and then redoing k
times restores the edge collection exactly and restores the node collection
up to one validation pass over the pre-undo state: the final nodes are
`validateNodes` of the pre-undo state, which coincides with exact deep
equality precisely when the pre-undo nodes already carry their computed
warning fields (always the case after an edge-changing final mutation, but
not after a plain `addNode`, whose fresh node still lacks them). -/
theorem undo_redo_returns_validated_state (ms : List Mutation) (hb : ms.length ≤ 50) :
    (redoOp^[ms.length] (undoOp^[ms.length] (applyMutations initStore ms))).edges =
      (applyMutations initStore ms).edges ∧
    (redoOp^[ms.length] (undoOp^[ms.length] (applyMutations initStore ms))).nodes =
      validateNodes (applyMutations initStore ms).edges (applyMutations initStore ms).nodes := by
  obtain ⟨hidx, hlen, ⟨e, he, hee, hev⟩, hstab⟩ := applyMutations_inv ms
  have hslt : (applyMutations initStore ms).currentIndex <
      (applyMutations initStore ms).history.length := by omega
  obtain ⟨u1, u2, u3⟩ := undoOp_iter_spec ms.length (applyMutations initStore ms) hslt
  by_cases hone : (applyMutations initStore ms).history.length = 1
  · have h0 : (applyMutations initStore ms).currentIndex = 0 := by omega
    have hueq : undoOp^[ms.length] (applyMutations initStore ms) =
        applyMutations initStore ms := by
      apply u3
      rw [u2]
      omega
    obtain ⟨p1, p2, p3, p4⟩ := redoOp_iter_spec ms.length (applyMutations initStore ms) hslt
    have hreq : redoOp^[ms.length] (applyMutations initStore ms) =
        applyMutations initStore ms := by
      apply p3
      rw [p2]
      omega
    rw [hueq, hreq]
    exact ⟨rfl, hstab hone⟩
  · have hk1 : 1 ≤ ms.length := by
      rcases ms with _ | ⟨m, rest⟩
      · exact absurd rfl hone
      · simp
    have hult : (undoOp^[ms.length] (applyMutations initStore ms)).currentIndex <
        (undoOp^[ms.length] (applyMutations initStore ms)).history.length := by
      rw [u1, u2]
      omega
    obtain ⟨r1, r2, r3, r4⟩ := redoOp_iter_spec ms.length _ hult
    rw [u1, u2] at r2
    have hfin : (redoOp^[ms.length] (undoOp^[ms.length] (applyMutations initStore ms))).currentIndex =
        (applyMutations initStore ms).history.length - 1 := by
      rw [r2]
      omega
    have hne : (redoOp^[ms.length] (undoOp^[ms.length] (applyMutations initStore ms))).currentIndex ≠
        (undoOp^[ms.length] (applyMutations initStore ms)).currentIndex := by
      rw [hfin, u2]
      omega
    obtain ⟨e2, he2, hn2, hd2⟩ := r4 hne
    rw [u1, hfin] at he2
    have he' : (applyMutations initStore ms).history.get?
        ((applyMutations initStore ms).history.length - 1) = some e := he
    rw [he'] at he2
    injection he2 with he2eq
    subst he2eq
    constructor
    · rw [hd2, hee]
    · rw [hn2, hee, hev]

/-- Claim C1 counterexample: one `addNode` mutation, one undo, one redo does
not restore the exact pre-undo node collection — the redo replays through
the validation effect, which stamps warning fields onto the fresh node that
the pre-undo state never had. -/
theorem undo_redo_not_exact_counterexample :
    (redoOp^[1] (undoOp^[1] (applyMutations initStore
        [Mutation.addNode NodeType.upsell (100, 100) 5]))).nodes ≠
      (applyMutations initStore [Mutation.addNode NodeType.upsell (100, 100) 5]).nodes := by
  decide

theorem undo_redo_returns_validated_state_witness :
    ([Mutation.deleteEdge "e-sales-order"].length ≤ 50) ∧
    ((redoOp^[[Mutation.deleteEdge "e-sales-order"].length]
        (undoOp^[[Mutation.deleteEdge "e-sales-order"].length]
          (applyMutations initStore [Mutation.deleteEdge "e-sales-order"]))).edges =
      (applyMutations initStore [Mutation.deleteEdge "e-sales-order"]).edges ∧
     (redoOp^[[Mutation.deleteEdge "e-sales-order"].length]
        (undoOp^[[Mutation.deleteEdge "e-sales-order"].length]
          (applyMutations initStore [Mutation.deleteEdge "e-sales-order"]))).nodes =
      validateNodes (applyMutations initStore [Mutation.deleteEdge "e-sales-order"]).edges
        (applyMutations initStore [Mutation.deleteEdge "e-sales-order"]).nodes) :=
  ⟨by decide, undo_redo_returns_validated_state [Mutation.deleteEdge "e-sales-order"] (by decide)⟩

/-- Claim C3 counterexample: immediately after `clearFunnel` has taken
effect the history holds two entries, not one, and `canUndo` is true — the
snapshot effect appends a duplicate on top of the reset history. -/
theorem clear_two_history_entries_counterexample :
    (clearFunnelOp initStore).history.length = 2 ∧
    canUndo (clearFunnelOp initStore) = true := by
  decide

/-- Claim C3 (amended): a successful `importFunnel` and `clearFunnel` each
reset the history and then the save/history effect appends one duplicate
snapshot: afterwards the history holds exactly two deep-equal copies of the
imported (respectively empty) state, `currentIndex = 1`, and `canUndo` is
true — though undoing merely restores an identical state. -/
theorem import_clear_history_reset (s : Store) (q : ImportPayload)
    (ns : List FunnelNode) (es : List FunnelEdge)
    (hn : q.nodes = some ns) (he : q.edges = some es) :
    ((importFunnelOp s (some q)).1 = true ∧
     (importFunnelOp s (some q)).2.history =
       [{ nodes := ns, edges := es }, { nodes := ns, edges := es }] ∧
     (importFunnelOp s (some q)).2.currentIndex = 1 ∧
     canUndo (importFunnelOp s (some q)).2 = true) ∧
    ((clearFunnelOp s).history =
       [{ nodes := [], edges := [] }, { nodes := [], edges := [] }] ∧
     (clearFunnelOp s).currentIndex = 1 ∧
     canUndo (clearFunnelOp s) = true) := by
  constructor
  · simp only [importFunnelOp, importFunnelCore, hn, he]
    refine ⟨rfl, ?_, ?_, ?_⟩ <;>
      simp [canUndo, runUserCascade_history, runUserCascade_currentIndex, snapshot]
  · refine ⟨?_, ?_, ?_⟩ <;>
      simp [canUndo, clearFunnelOp, runUserCascade_history, runUserCascade_currentIndex, snapshot]

theorem import_clear_history_reset_witness :
    (({ nodes := some [], edges := some [] } : ImportPayload).nodes = some [] ∧
     ({ nodes := some [], edges := some [] } : ImportPayload).edges = some []) ∧
    ((importFunnelOp initStore (some { nodes := some [], edges := some [] })).1 = true ∧
     (importFunnelOp initStore (some { nodes := some [], edges := some [] })).2.history =
       [{ nodes := [], edges := [] }, { nodes := [], edges := [] }] ∧
     (importFunnelOp initStore (some { nodes := some [], edges := some [] })).2.currentIndex = 1 ∧
     canUndo (importFunnelOp initStore (some { nodes := some [], edges := some [] })).2 = true) ∧
    ((clearFunnelOp initStore).history =
       [{ nodes := [], edges := [] }, { nodes := [], edges := [] }] ∧
     (clearFunnelOp initStore).currentIndex = 1 ∧
     canUndo (clearFunnelOp initStore) = true) :=
  ⟨⟨rfl, rfl⟩, import_clear_history_reset initStore _ [] [] rfl rfl⟩

/-- Claim C4 counterexample: after deleting the sales→order edge of the
default store, the history entry recorded for the mutation differs from the
validated live node state — the snapshot ran before the validation
recompute and still carries the stale warning flags. -/
theorem snapshot_prevalidation_counterexample :
    (lastEntry (applyMutation initStore (Mutation.deleteEdge "e-sales-order")).history).map
        (fun e => e.nodes) ≠
      some (applyMutation initStore (Mutation.deleteEdge "e-sales-order")).nodes := by
  decide

/-- Claim C4 (amended): for every mutation that changes the edge collection
the effects run mutation → persistence save and history snapshot →
validation recompute: the recorded history entry holds the new edge set
with the pre-validation nodes, while the live store ends with the warnings
recomputed from the new edges (and that validated state is what the final
save run persists). -/
theorem snapshot_before_validation (s : Store) (ns : List FunnelNode) (es : List FunnelEdge)
    (hlen1 : 1 ≤ s.history.length) (hlen50 : s.history.length ≤ 50) :
    lastEntry (runUserCascade s ns es true).history = some { nodes := ns, edges := es } ∧
    (runUserCascade s ns es true).nodes = validateNodes es ns ∧
    (runUserCascade s ns es true).edges = es := by
  obtain ⟨-, -, -, h4⟩ :=
    snapshot_spec s.history s.currentIndex { nodes := ns, edges := es } hlen1 hlen50
  refine ⟨?_, ?_, runUserCascade_edges s ns es true⟩
  · rw [runUserCascade_history]
    exact h4
  · rw [runUserCascade_nodes]
    simp

theorem snapshot_before_validation_witness :
    (1 ≤ initStore.history.length ∧ initStore.history.length ≤ 50) ∧
    (lastEntry (runUserCascade initStore initStore.nodes [] true).history =
       some { nodes := initStore.nodes, edges := [] } ∧
     (runUserCascade initStore initStore.nodes [] true).nodes =
       validateNodes [] initStore.nodes ∧
     (runUserCascade initStore initStore.nodes [] true).edges = []) :=
  ⟨⟨by decide, by decide⟩,
   snapshot_before_validation initStore initStore.nodes [] (by decide) (by decide)⟩

theorem LabelCounts.get_set_self (c : LabelCounts) (t : NodeType) (v : Nat) :
    (c.set t v).get t = v := by
  cases t <;> rfl

theorem LabelCounts.get_set_other (c : LabelCounts) (t u : NodeType) (v : Nat)
    (h : t ≠ u) : (c.set t v).get u = c.get u := by
  cases t <;> cases u <;> simp_all [LabelCounts.set, LabelCounts.get]

theorem LabelCounts.get_le_set (c : LabelCounts) (t u : NodeType) (v : Nat)
    (h : c.get u ≤ v) : c.get t ≤ (c.set u v).get t := by
  by_cases htu : u = t
  · subst htu
    rw [LabelCounts.get_set_self]
    exact h
  · rw [LabelCounts.get_set_other _ _ _ _ htu]

theorem bumpLoad_mono (c : LabelCounts) (n : FunnelNode) (t : NodeType) :
    c.get t ≤ (bumpLoad c n).get t := by
  cases h : trailingNat n.data.label with
  | none =>
    simp only [bumpLoad, h]
    exact LabelCounts.get_le_set c t _ _ (le_max_left _ _)
  | some num =>
    simp only [bumpLoad, h]
    split
    · next hle => exact LabelCounts.get_le_set c t _ _ hle
    · exact le_refl _

theorem bumpImport_mono (c : LabelCounts) (n : FunnelNode) (t : NodeType) :
    c.get t ≤ (bumpImport c n).get t := by
  cases h : trailingNat n.data.label with
  | none =>
    simp only [bumpImport, h]
    exact le_refl _
  | some num =>
    simp only [bumpImport, h]
    split
    · next hle => exact LabelCounts.get_le_set c t _ _ hle
    · exact le_refl _

theorem foldl_bumpLoad_mono (l : List FunnelNode) :
    ∀ (c : LabelCounts) (t : NodeType), c.get t ≤ (l.foldl bumpLoad c).get t := by
  induction l with
  | nil => intro c t; exact le_refl _
  | cons n rest ih =>
    intro c t
    exact le_trans (bumpLoad_mono c n t) (ih (bumpLoad c n) t)

theorem foldl_bumpImport_mono (l : List FunnelNode) :
    ∀ (c : LabelCounts) (t : NodeType), c.get t ≤ (l.foldl bumpImport c).get t := by
  induction l with
  | nil => intro c t; exact le_refl _
  | cons n rest ih =>
    intro c t
    exact le_trans (bumpImport_mono c n t) (ih (bumpImport c n) t)

theorem bumpLoad_ge_suffix (c : LabelCounts) (n : FunnelNode) (k : Nat)
    (hk : trailingNat n.data.label = some k) :
    k ≤ (bumpLoad c n).get n.data.nodeType := by
  simp only [bumpLoad, hk]
  split
  · next hle => rw [LabelCounts.get_set_self]
  · next hgt => omega

theorem bumpImport_ge_suffix (c : LabelCounts) (n : FunnelNode) (k : Nat)
    (hk : trailingNat n.data.label = some k) :
    k ≤ (bumpImport c n).get n.data.nodeType := by
  simp only [bumpImport, hk]
  split
  · next hle => rw [LabelCounts.get_set_self]
  · next hgt => omega

theorem foldl_bumpLoad_ge_suffix (l : List FunnelNode) :
    ∀ (c : LabelCounts) (n : FunnelNode) (k : Nat), n ∈ l →
      trailingNat n.data.label = some k → k ≤ (l.foldl bumpLoad c).get n.data.nodeType := by
  induction l with
  | nil =>
    intro c n k hmem _
    cases hmem
  | cons m rest ih =>
    intro c n k hmem hk
    rcases List.mem_cons.mp hmem with heq | htail
    · subst heq
      exact le_trans (bumpLoad_ge_suffix c n k hk)
        (foldl_bumpLoad_mono rest (bumpLoad c n) n.data.nodeType)
    · exact ih (bumpLoad c m) n k htail hk

theorem foldl_bumpImport_ge_suffix (l : List FunnelNode) :
    ∀ (c : LabelCounts) (n : FunnelNode) (k : Nat), n ∈ l →
      trailingNat n.data.label = some k → k ≤ (l.foldl bumpImport c).get n.data.nodeType := by
  induction l with
  | nil =>
    intro c n k hmem _
    cases hmem
  | cons m rest ih =>
    intro c n k hmem hk
    rcases List.mem_cons.mp hmem with heq | htail
    · subst heq
      exact le_trans (bumpImport_ge_suffix c n k hk)
        (foldl_bumpImport_mono rest (bumpImport c n) n.data.nodeType)
    · exact ih (bumpImport c m) n k htail hk

theorem foldl_bumpLoad_ge_one (l : List FunnelNode) :
    ∀ (c : LabelCounts) (n : FunnelNode), n ∈ l →
      trailingNat n.data.label = none → 1 ≤ (l.foldl bumpLoad c).get n.data.nodeType := by
  induction l with
  | nil =>
    intro c n hmem _
    cases hmem
  | cons m rest ih =>
    intro c n hmem hk
    rcases List.mem_cons.mp hmem with heq | htail
    · subst heq
      refine le_trans ?_ (foldl_bumpLoad_mono rest (bumpLoad c n) n.data.nodeType)
      simp only [bumpLoad, hk]
      rw [LabelCounts.get_set_self]
      exact le_max_right _ _
    · exact ih (bumpLoad c m) n htail hk

/-- Claim C9 (amended): on both load-from-storage and `importFunnel` the
reconstructed counter of each kind dominates every numeric suffix embedded
in that kind's labels, so a subsequent `allocate` cannot collide with a
suffixed label of the same kind; but the `max(current, 1)` fallback for
labels without a trailing integer exists only in the load reconstruction —
`importFunnel` leaves the counter untouched on such labels. -/
theorem reconstruct_counters_dominate_suffixes (nodes : List FunnelNode) (n : FunnelNode)
    (hn : n ∈ nodes) :
    (∀ k, trailingNat n.data.label = some k →
       k ≤ (reconstructLoad nodes).get n.data.nodeType ∧
       k ≤ (reconstructImport nodes).get n.data.nodeType) ∧
    (trailingNat n.data.label = none →
       1 ≤ (reconstructLoad nodes).get n.data.nodeType) := by
  constructor
  · intro k hk
    exact ⟨foldl_bumpLoad_ge_suffix nodes createLabelCounter n k hn hk,
           foldl_bumpImport_ge_suffix nodes createLabelCounter n k hn hk⟩
  · intro hk
    exact foldl_bumpLoad_ge_one nodes createLabelCounter n hn hk

/-- A node labelled with a trailing integer, used as witness input. -/
def suffixUpsellNode : FunnelNode :=
  { id := "u7", position := (0, 0),
    data := { label := "Upsell 7", nodeType := NodeType.upsell, buttonLabel := "Yes, Add This!" } }

theorem reconstruct_counters_dominate_suffixes_witness :
    (suffixUpsellNode ∈ [suffixUpsellNode] ∧
     trailingNat suffixUpsellNode.data.label = some 7) ∧
    (7 ≤ (reconstructLoad [suffixUpsellNode]).get suffixUpsellNode.data.nodeType ∧
     7 ≤ (reconstructImport [suffixUpsellNode]).get suffixUpsellNode.data.nodeType) :=
  ⟨⟨by decide, by decide⟩,
   (reconstruct_counters_dominate_suffixes [suffixUpsellNode] suffixUpsellNode
      (by decide)).1 7 (by decide)⟩

/-- A node whose label carries no trailing integer, used as counterexample
input. -/
def plainUpsellNode : FunnelNode :=
  { id := "u1", position := (0, 0),
    data := { label := "Upsell", nodeType := NodeType.upsell, buttonLabel := "Yes, Add This!" } }

/-- Claim C9 counterexample: on `importFunnel` a label with no trailing
integer does not raise the counter to `max(current, 1)` as claimed —
importing one upsell labelled "Upsell" leaves the upsell counter at its
seed 0, while the load reconstruction of the same collection yields 1. -/
theorem import_reconstruction_skips_plain_labels_counterexample :
    trailingNat plainUpsellNode.data.label = none ∧
    (reconstructImport [plainUpsellNode]).get plainUpsellNode.data.nodeType = 0 ∧
    (reconstructLoad [plainUpsellNode]).get plainUpsellNode.data.nodeType = 1 ∧
    (reconstructImport [plainUpsellNode]).get plainUpsellNode.data.nodeType ≠
      max (createLabelCounter.get plainUpsellNode.data.nodeType) 1 := by
  decide

/-- Claim C10 counterexample: `connect` performs no node-existence check —
connecting from the nonexistent id "ghost" to "order-1" on the default
store changes the edge collection (an edge is appended) even though no node
has id "ghost". -/
theorem connect_ghost_adds_edge_counterexample :
    ((initStore.nodes.all fun n => !(n.id == "ghost")) = true) ∧
    (connectOp initStore { source := "ghost", target := "order-1" }).edges ≠
      initStore.edges := by
  decide

/-- Claim C10 (amended): `connect` never verifies that source or target
reference existing node ids.  Whenever the source id does not resolve to a
Thank You node, both endpoints are nonempty strings, and no edge with the
same source/target pair already exists, the edge is appended — whether or
not any node carries those ids. -/
theorem connect_appends_without_existence_check (s : Store) (c : Connection)
    (h1 : ((s.nodes.find? fun n => n.id == c.source).any
        fun n => n.data.nodeType == NodeType.thankYou) = false)
    (h2 : c.source ≠ "") (h3 : c.target ≠ "")
    (h4 : (s.edges.any fun e => e.source == c.source && e.target == c.target) = false) :
    (connectOp s c).edges =
      s.edges ++ [{ id := "xy-edge__" ++ c.source ++ "-" ++ c.target,
                    source := c.source, target := c.target, animated := true }] := by
  have hadd : addEdge c s.edges =
      s.edges ++ [{ id := "xy-edge__" ++ c.source ++ "-" ++ c.target,
                    source := c.source, target := c.target, animated := true }] := by
    unfold addEdge
    rw [if_neg (by simp [h2, h3]), if_neg (by simp [h4])]
  have hne : addEdge c s.edges ≠ s.edges := by
    rw [hadd]
    intro heq
    have hlen := congrArg List.length heq
    simp at hlen
  unfold connectOp
  rw [if_neg (by simp [h1]), if_neg hne, runUserCascade_edges, hadd]

theorem connect_appends_without_existence_check_witness :
    (((initStore.nodes.find? fun n => n.id == "ghost").any
        fun n => n.data.nodeType == NodeType.thankYou) = false ∧
     ("ghost" : String) ≠ "" ∧ ("order-1" : String) ≠ "" ∧
     (initStore.edges.any fun e => e.source == "ghost" && e.target == "order-1") = false) ∧
    (connectOp initStore { source := "ghost", target := "order-1" }).edges =
      initStore.edges ++ [{ id := "xy-edge__" ++ "ghost" ++ "-" ++ "order-1",
                            source := "ghost", target := "order-1", animated := true }] :=
  ⟨⟨by decide, by decide, by decide, by decide⟩,
   connect_appends_without_existence_check initStore { source := "ghost", target := "order-1" }
     (by decide) (by decide) (by decide) (by decide)⟩
